import Mathlib

/-!
Shallow embedding of the query-fragment assembly engine of the egg-arango
BaseDao layer (src/app/dao/base.js, called V1 below, and the later variant
src/unnamed/part_002, called V2 below).

An arangojs `aql` template produces a query string plus bind variables.
We model a composed query as a list of parts: `QPart.lit s` is text inlined
verbatim into the query (template chunks and `aql.literal` values), and
`QPart.bind v` is a value passed as a bind parameter (rendered as `@valueN`
by the driver, never interpolated into the text).  An interpolated
`undefined` contributes nothing, which we model by splicing `Option.getD []`.
JS numbers are modelled as integers (the Dao validates them with
`Joi.number().integer()`); NaN and Infinity are not representable in the
model.  The argument `al` everywhere stands for the source's `alias`
parameter (a Lean keyword).
-/

/-- JS/AQL scalar values; numbers are modelled as integers. -/
inductive Scalar
  | str (s : String)
  | num (n : Int)
  | bool (b : Bool)
  | null
deriving DecidableEq, Repr

/-- A JSON document (JS object with scalar attributes), as an association
list in insertion order, matching JS object key iteration order. -/
abbrev Doc := List (String × Scalar)

/-- Values that the Dao passes to `aql` as bind parameters. -/
inductive BindVal
  | sc (v : Scalar)
  | arr (vs : List Scalar)
  | strs (ss : List String)
  | doc (d : Doc)
  | docs (ds : List Doc)
deriving DecidableEq, Repr

/-- One part of a composed query: inlined literal text or a bind parameter. -/
inductive QPart
  | lit (s : String)
  | bind (v : BindVal)
deriving DecidableEq, Repr

/-- A composed query fragment (an arangojs AqlQuery). -/
abbrev Fragment := List QPart

/-- Embedding of `aql.join(list)` with its default separator, a single space. -/
def aqlJoin (fs : List Fragment) : Fragment :=
  List.intercalate [QPart.lit " "] fs

/-- The query text with bind parameters shown as a placeholder. -/
def fragText (f : Fragment) : String :=
  f.foldl (fun s p => s ++ match p with | .lit t => t | .bind _ => "@value") ""

/-- First-match attribute lookup in a document. -/
def lookupDoc (d : Doc) (k : String) : Option Scalar :=
  (d.find? (fun kv => kv.1 == k)).map (·.2)

/-- AQL attribute access: a missing attribute reads as `null`. -/
def attrVal (d : Doc) (k : String) : Scalar :=
  (lookupDoc d k).getD .null

/-- AQL `UNSET(doc, attrs)`: remove the listed attributes. -/
def unsetFn (d : Doc) (ks : List String) : Doc :=
  d.filter (fun kv => !ks.contains kv.1)

/-- AQL `KEEP(doc, attrs)`: keep only the listed attributes. -/
def keepFn (d : Doc) (ks : List String) : Doc :=
  d.filter (fun kv => ks.contains kv.1)

/-- AQL `MERGE(a, b)`: attributes of `b` override those of `a`. -/
def mergeDoc (a b : Doc) : Doc :=
  a.filter (fun kv => !(b.map (·.1)).contains kv.1) ++ b

/-- AQL truthiness (used by bare `e._status` in the V1 graph filter):
`null`, `false`, `0` and the empty string are falsy. -/
def aqlTruthy : Scalar → Bool
  | .bool b => b
  | .null => false
  | .num n => n != 0
  | .str s => s != ""

/-!
Filter values.  `getFilterAql` dispatches on the runtime shape of each
filter entry: `Array.isArray(data)`, then `!!data && typeof data === "object"`
(a `{opr, value}` object whose `value` is itself a scalar or an array),
else a scalar (including `null`, which JS sends to the scalar branch since
`!!null` is false).
-/

/-- The `value` of a `{opr, value}` filter entry: scalar or array. -/
inductive PosData
  | one (v : Scalar)
  | many (vs : List Scalar)
deriving DecidableEq, Repr

/-- Runtime shapes of a filter entry's value. -/
inductive FilterValue
  | scalar (v : Scalar)
  | arr (vs : List Scalar)
  | obj (opr : String) (value : PosData)
deriving DecidableEq, Repr

/-- A filter mapping, in JS key-insertion order. -/
abbrev FilterObj := List (String × FilterValue)

/-- Bind value for a `{opr, value}` entry's `value`. -/
def bindOfPos : PosData → BindVal
  | .one v => .sc v
  | .many vs => .arr vs

/-- Fragment of `aql` and `${alias}.${key} == ${data}` (scalar entry):
the alias is an `aql.literal`, the key and the value are bound. -/
def eqFrag (al key : String) (v : Scalar) : Fragment :=
  [.lit " and ", .lit al, .lit ".", .bind (.sc (.str key)), .lit " == ", .bind (.sc v)]

/-- Fragment of `aql` and `${alias}.${key} in ${data}` (array entry). -/
def inFrag (al key : String) (vs : List Scalar) : Fragment :=
  [.lit " and ", .lit al, .lit ".", .bind (.sc (.str key)), .lit " in ", .bind (.arr vs)]

/-- Fragment of `aql` and `${alias}.${key} ${aql.literal(data.opr)} ${data.value}`
(V2 structured entry): the operator string is inlined via `aql.literal`. -/
def oprFrag (al key opr : String) (value : PosData) : Fragment :=
  [.lit " and ", .lit al, .lit ".", .bind (.sc (.str key)), .lit " ",
   .lit opr, .lit " ", .bind (bindOfPos value)]

/-- Per-element fragments of V2 `getArrayAttrAql` for an array value:
`${el} in ${alias}.${key} or ` for all but the last element, and
`${el} in ${alias}.${key} ` for the last. -/
def posItemFrags (al key : String) : List Scalar → List Fragment
  | [] => []
  | [v] => [[.bind (.sc v), .lit " in ", .lit al, .lit ".", .bind (.sc (.str key)), .lit " "]]
  | v :: r :: rest =>
      [.bind (.sc v), .lit " in ", .lit al, .lit ".", .bind (.sc (.str key)), .lit " or "]
        :: posItemFrags al key (r :: rest)

/-- V2 `getArrayAttrAql(alias, key, data)`: the membership-reversal
(`POSITION`) filter, an own `FILTER` line with the value(s) tested for
membership in the document's array attribute, `or`-joined for an array. -/
def getArrayAttrAql (al key : String) : PosData → Fragment
  | .many [] => aqlJoin []
  | .many (v :: rest) => aqlJoin ([QPart.lit "\nFILTER "] :: posItemFrags al key (v :: rest))
  | .one v =>
      aqlJoin [[.lit "\nFILTER ", .bind (.sc v), .lit " in ", .lit al, .lit ".",
                .bind (.sc (.str key))]]

/-- One iteration of the V2 `getFilterAql` loop: push the entry's fragment
onto the equality/membership list, the `{opr, value}` list, or the
`POSITION` list, according to the entry's runtime shape. -/
def filterStep (al : String) (acc : List Fragment × List Fragment × List Fragment)
    (kv : String × FilterValue) : List Fragment × List Fragment × List Fragment :=
  match kv.2 with
  | .arr vs => (acc.1 ++ [inFrag al kv.1 vs], acc.2.1, acc.2.2)
  | .obj opr value =>
      if opr = "POSITION" then
        (acc.1, acc.2.1, acc.2.2 ++ [getArrayAttrAql al kv.1 value])
      else
        (acc.1, acc.2.1 ++ [oprFrag al kv.1 opr value], acc.2.2)
  | .scalar v => (acc.1 ++ [eqFrag al kv.1 v], acc.2.1, acc.2.2)

/-- The three per-shape fragment lists built by the V2 `getFilterAql` loop
(`filterAqlList`, `otherFilterAqlList`, `arrayAttrAqlList`). -/
def getFilterAqlLists (filter : FilterObj) (al : String) :
    List Fragment × List Fragment × List Fragment :=
  filter.foldl (filterStep al) ([], [], [])

/-- V2 `getFilterAql(filter, alias)`: default alias `t`; the three lists are
concatenated equality/membership first, then `{opr, value}`, then
`POSITION`; returns `undefined` (here `none`) when nothing was collected. -/
def getFilterAql (filter : Option FilterObj) (al : Option String) : Option Fragment :=
  let a := al.getD "t"
  match filter with
  | none => none
  | some entries =>
      let ls := getFilterAqlLists entries a
      let all := ls.1 ++ ls.2.1 ++ ls.2.2
      if all.isEmpty then none else some (aqlJoin all)

/-- V1 `getFilterAql` per-entry fragment: only the scalar and array branches
exist; every non-array value (objects included) is bound into an equality
test. -/
def v1FilterFrag (al : String) (kv : String × FilterValue) : Fragment :=
  match kv.2 with
  | .arr vs => inFrag al kv.1 vs
  | .scalar v => eqFrag al kv.1 v
  | .obj _ value => [.lit " and ", .lit al, .lit ".", .bind (.sc (.str kv.1)),
                     .lit " == ", .bind (bindOfPos value)]

/-- V1 `getFilterAql`: one fragment per key in iteration order, joined. -/
def v1GetFilterAql (filter : Option FilterObj) (al : Option String) : Option Fragment :=
  let a := al.getD "t"
  match filter with
  | none => none
  | some entries =>
      let l := entries.map (v1FilterFrag a)
      if l.isEmpty then none else some (aqlJoin l)

/-!
Sort clause builders.  V1's default field is `_create_date desc`; V2's is
`_id`.  Directions and field names are interpolated as plain strings, so
they end up as bind parameters; only the alias is an `aql.literal`.
-/

/-- One `{field, direction}` sort entry; `direction` is optional. -/
structure SortItem where
  field : String
  direction : Option String
deriving DecidableEq, Repr

/-- The source's `!el.direction ? '' : el.direction`. -/
def dirStr (d : Option String) : String :=
  match d with
  | none => ""
  | some s => s

/-- V1 default sort entry `aql` ` ${alias}._create_date desc ` `. -/
def v1SortDefaultFrag (al : String) : Fragment :=
  [.lit " ", .lit al, .lit "._create_date desc "]

/-- V1 sort fragment for a non-final entry: `aql` ` ${alias}.${el.field} ${dir}, ` `. -/
def v1SortItemMid (al : String) (it : SortItem) : Fragment :=
  [.lit " ", .lit al, .lit ".", .bind (.sc (.str it.field)), .lit " ",
   .bind (.sc (.str (dirStr it.direction))), .lit ", "]

/-- V1 sort fragment for the final entry: `aql` `${alias}.${el.field} ${dir} ` `. -/
def v1SortItemLast (al : String) (it : SortItem) : Fragment :=
  [.lit al, .lit ".", .bind (.sc (.str it.field)), .lit " ",
   .bind (.sc (.str (dirStr it.direction))), .lit " "]

/-- V1 per-entry sort fragments, with the last entry rendered without a
trailing comma. -/
def v1SortItemFrags (al : String) : List SortItem → List Fragment
  | [] => []
  | [it] => [v1SortItemLast al it]
  | it :: r :: rest => v1SortItemMid al it :: v1SortItemFrags al (r :: rest)

/-- V1 `getSortFieldAqlList(sorts, alias)`: starts from the default
`_create_date desc` entry and replaces it by the caller's entries when the
built list is non-empty. -/
def v1GetSortFieldAqlList (sorts : Option (List SortItem)) (al : Option String) : List Fragment :=
  let a := al.getD "t"
  match sorts with
  | none => [v1SortDefaultFrag a]
  | some l =>
      let fl := v1SortItemFrags a l
      if fl.isEmpty then [v1SortDefaultFrag a] else fl

/-- V1 `getSortAql`: unshift `aql` ` SORT ` ` and join. -/
def v1GetSortAql (l : List Fragment) : Fragment :=
  aqlJoin ([QPart.lit " SORT "] :: l)

/-- V2 sort fragment per entry: `aql` `${alias}.${el.field} ${dir}` `. -/
def v2SortFieldFrag (al : String) (it : SortItem) : Fragment :=
  [.lit al, .lit ".", .bind (.sc (.str it.field)), .lit " ",
   .bind (.sc (.str (dirStr it.direction)))]

/-- V2 `getSortFieldAqlList(sorts, alias)`: default `[aql` ${alias}._id `]`;
a present `sorts` array first removes the default and then appends one
fragment per entry (an empty array therefore leaves no fragment at all). -/
def v2GetSortFieldAqlList (sorts : Option (List SortItem)) (al : Option String) : List Fragment :=
  let a := al.getD "t"
  match sorts with
  | none => [[.lit " ", .lit a, .lit "._id "]]
  | some l => l.map (v2SortFieldFrag a)

/-- The comma-then-item interleaving of the V2 `getSortAql` loop
(`sorts.push(aql`, `); sorts.push(sortFieldAqlList[i])` for `i ≥ 1`). -/
def v2CommaInterleave : List Fragment → List Fragment
  | [] => []
  | f :: rest => [QPart.lit ", "] :: f :: v2CommaInterleave rest

/-- V2 `getSortAql`: when non-empty, prefix a single `aql` ` SORT` ` and put
`aql` `, ` ` between consecutive entries, then join. -/
def v2GetSortAql (l : List Fragment) : Fragment :=
  match l with
  | [] => aqlJoin []
  | x :: rest => aqlJoin ([QPart.lit " SORT"] :: x :: v2CommaInterleave rest)

/-!
Like clause builder (V1) and the option/validation layer.
-/

/-- One like entry `{field, search}` (V1 has no case flag). -/
structure LikeItem where
  field : String
  search : String
deriving DecidableEq, Repr

/-- The like parameter object with its `or` and `and` groups. -/
structure LikeObj where
  orGroup : Option (List LikeItem)
  andGroup : Option (List LikeItem)
deriving DecidableEq, Repr

/-- V1 `or`-group item fragments: `LIKE(${alias}.${el.field}, ${el.search}) or `
for all but the last, `LIKE(${alias}.${el.field}, ${el.search}) ` for the last. -/
def v1LikeOrItemFrags (al : String) : List LikeItem → List Fragment
  | [] => []
  | [it] => [[.lit "LIKE(", .lit al, .lit ".", .bind (.sc (.str it.field)), .lit ", ",
              .bind (.sc (.str it.search)), .lit ") "]]
  | it :: r :: rest =>
      [.lit "LIKE(", .lit al, .lit ".", .bind (.sc (.str it.field)), .lit ", ",
       .bind (.sc (.str it.search)), .lit ") or "]
        :: v1LikeOrItemFrags al (r :: rest)

/-- V1 `and`-group item fragment: an own `FILTER LIKE(...)` line. -/
def v1LikeAndItemFrag (al : String) (it : LikeItem) : Fragment :=
  [.lit "\nFILTER LIKE(", .lit al, .lit ".", .bind (.sc (.str it.field)), .lit ", ",
   .bind (.sc (.str it.search)), .lit ")"]

/-- V1 `getLikeAql(like, alias)`: returns the `{orAql, andAql}` pair; the
`or` group shares one `FILTER` line, the `and` group is one `FILTER` line
per item; empty groups yield `undefined`. -/
def v1GetLikeAql (like : Option LikeObj) (al : Option String) :
    Option Fragment × Option Fragment :=
  let a := al.getD "t"
  match like with
  | none => (none, none)
  | some lk =>
      let orList : List Fragment :=
        match lk.orGroup with
        | none => []
        | some [] => []
        | some (x :: rest) => [QPart.lit "\nFILTER "] :: v1LikeOrItemFrags a (x :: rest)
      let andList : List Fragment :=
        match lk.andGroup with
        | none => []
        | some l => l.map (v1LikeAndItemFrag a)
      ((if orList.isEmpty then none else some (aqlJoin orList)),
       (if andList.isEmpty then none else some (aqlJoin andList)))

/-- Query options (the V2 `optionsSchema`; V1 only knows `hasEdge` and
`keepAttrs`, which its schema enforces by rejecting the other keys). -/
structure QueryOptions where
  hasEdge : Option Bool := none
  hasFromTo : Option Bool := none
  keepAttrs : Option String := none
  depthLimit : Option Bool := none
  convertStaticFlag : Option Bool := none
  convertAreaFlag : Option Bool := none
deriving DecidableEq, Repr

/-- JS truthiness of an optional boolean option. -/
def optTrue (b : Option Bool) : Bool := b.getD false

/-!
Joi validation, as decidable predicates.  `Joi.string()` rejects the empty
string; `Joi.any().invalid('', null, NaN, Infinity)` rejects the empty
string and `null` (NaN and Infinity are unrepresentable here); arrays and
objects never deep-equal those scalars, so they pass.
-/

/-- A scalar passes `Joi.any().invalid('', null, NaN, Infinity)`. -/
def scalarOk : Scalar → Bool
  | .str "" => false
  | .null => false
  | _ => true

/-- A filter entry value passes `invalid('', null, NaN, Infinity)`. -/
def filterValueOk : FilterValue → Bool
  | .scalar v => scalarOk v
  | _ => true

/-- V1 `filterMinSchema` on a plain document (e.g. a `save` payload):
at least one attribute, no empty-string or null values. -/
def docMinOk (d : Doc) : Bool :=
  !d.isEmpty && d.all (fun kv => scalarOk kv.2)

/-- `filterMinSchema` (V1) / `filterMinRequired` (V2) on a filter object. -/
def filterMinOk (f : FilterObj) : Bool :=
  !f.isEmpty && f.all (fun kv => filterValueOk kv.2)

/-- `filterSchema` (V1): like `filterMinSchema` but without the minimum. -/
def filterCommonOkV1 (f : Option FilterObj) : Bool :=
  match f with
  | none => true
  | some l => l.all (fun kv => filterValueOk kv.2)

/-- `filterCommon` (V2) only rejects NaN and Infinity, which the model
cannot represent, so every representable filter passes. -/
def filterCommonOkV2 (_f : Option FilterObj) : Bool := true

/-- `sortSchema`: a present array has at least one item, fields are
non-empty strings, directions come from the fixed valid list. -/
def sortsOk (s : Option (List SortItem)) : Bool :=
  match s with
  | none => true
  | some l =>
      !l.isEmpty && l.all (fun it =>
        it.field != "" &&
        (match it.direction with
         | none => true
         | some d => ["", "asc", "desc", "ASC", "DESC"].contains d))

/-- `likeSchema`: at least one group, each present group non-empty with
non-empty field and search strings. -/
def likeOk (lk : Option LikeObj) : Bool :=
  let itemsOk (l : List LikeItem) : Bool :=
    !l.isEmpty && l.all (fun it => it.field != "" && it.search != "")
  match lk with
  | none => true
  | some o =>
      (!(o.orGroup.isNone && o.andGroup.isNone)) &&
      (match o.orGroup with | none => true | some l => itemsOk l) &&
      (match o.andGroup with | none => true | some l => itemsOk l)

/-- V1 `optionsSchema`: only `hasEdge` and `keepAttrs` are known keys, and
`Joi.string()` rejects an empty `keepAttrs`. -/
def optionsOkV1 (o : Option QueryOptions) : Bool :=
  match o with
  | none => true
  | some o =>
      o.hasFromTo.isNone && o.depthLimit.isNone &&
      o.convertStaticFlag.isNone && o.convertAreaFlag.isNone &&
      o.keepAttrs != some ""

/-- V2 `optionsSchema`: all six keys are known; `Joi.string()` still
rejects an empty `keepAttrs`. -/
def optionsOkV2 (o : Option QueryOptions) : Bool :=
  match o with
  | none => true
  | some o => o.keepAttrs != some ""

/-!
Response shape builder `getResAql`.  The result is one of three shapes,
each applying `UNSET` or `KEEP` with an attribute list that is always a
bind parameter; braces and quotes appearing inside AQL text are written
with \x7b, \x7d and \x27 escapes.
-/

/-- The projection function chosen by `getResAql`. -/
inductive Func
  | UNSET
  | KEEP
deriving DecidableEq, Repr

/-- The attributes that queries never return (`this.unsetRes`), V1. -/
def v1UnsetRes : List String :=
  ["_rev", "_key", "_status", "password", "_token", "_token_expire_date"]

/-- The attributes that queries never return (`this.unsetRes`), V2. -/
def v2UnsetRes : List String :=
  ["_rev", "_key", "_status", "password"]

/-- The attributes stripped from insert/update payloads (`this.unset`),
identical in V1 and V2. -/
def unsetAttrs : List String :=
  ["_id", "_rev", "_key", "_status", "_create_date"]

/-- `options.keepAttrs.split(',').filter(v => !this.unsetRes.includes(v))`. -/
def keepAttrsSplit (excl : List String) (s : String) : List String :=
  (s.splitOn ",").filter (fun v => !excl.contains v)

/-- The three return shapes of `getResAql`. -/
inductive ResAql
  | plain (f : Func) (al : String) (attrs : List String)
  | vertexEdge (f : Func) (al : String) (attrs : List String)
  | mergeFromTo (f : Func) (al : String) (attrs : List String)
deriving DecidableEq, Repr

/-- The projection function of a `ResAql`. -/
def resFunc : ResAql → Func
  | .plain f _ _ => f
  | .vertexEdge f _ _ => f
  | .mergeFromTo f _ _ => f

/-- The attribute list of a `ResAql`. -/
def resAttrs : ResAql → List String
  | .plain _ _ a => a
  | .vertexEdge _ _ a => a
  | .mergeFromTo _ _ a => a

/-- The `(func, keepAttrs)` pair of `getResAql`: default `UNSET` with the
forced exclusions; a non-blank `options.keepAttrs` switches to `KEEP` with
the forced exclusions filtered out of the split list. -/
def resFk (excl : List String) (keepAttrs : Option String) : Func × List String :=
  match keepAttrs with
  | some s => if s.trim ≠ "" then (.KEEP, keepAttrsSplit excl s) else (.UNSET, excl)
  | none => (.UNSET, excl)

/-- V2 alias handling: absent, empty or `t` means a non-edge query. -/
def v2ResAlias (al : Option String) : String × Bool :=
  match al with
  | none => ("t", false)
  | some s => if s = "t" ∨ s = "" then ("t", false) else (s, true)

/-- V2 `getResAql(options, alias)`: `keepAttrs` switches `UNSET` to `KEEP`
with the forced exclusions filtered out; on an edge alias, `hasEdge` yields
the `{vertex, edge}` pair and `hasFromTo` the `MERGE` with the edge
endpoints. -/
def v2GetResAql (options : Option QueryOptions) (al : Option String) : ResAql :=
  let p := v2ResAlias al
  match options with
  | none => .plain .UNSET p.1 v2UnsetRes
  | some o =>
      let fk := resFk v2UnsetRes o.keepAttrs
      if p.2 && optTrue o.hasEdge then .vertexEdge fk.1 p.1 fk.2
      else if p.2 && optTrue o.hasFromTo then .mergeFromTo fk.1 p.1 fk.2
      else .plain fk.1 p.1 fk.2

/-- V1 alias handling: only an absent (or empty) alias means non-edge. -/
def v1ResAlias (al : Option String) : String × Bool :=
  match al with
  | none => ("t", false)
  | some s => if s = "" then ("t", false) else (s, true)

/-- V1 `getResAql(options, alias)`: with no options an edge alias returns
the `MERGE` with the endpoints; `hasEdge` yields the pair; otherwise the
plain projection. -/
def v1GetResAql (options : Option QueryOptions) (al : Option String) : ResAql :=
  let p := v1ResAlias al
  match options with
  | none =>
      if p.2 then .mergeFromTo .UNSET p.1 v1UnsetRes
      else .plain .UNSET p.1 v1UnsetRes
  | some o =>
      let fk := resFk v1UnsetRes o.keepAttrs
      if optTrue o.hasEdge then .vertexEdge fk.1 p.1 fk.2
      else .plain fk.1 p.1 fk.2

/-- The AQL text of `getResAql`'s function name. -/
def funcStr : Func → String
  | .UNSET => "UNSET"
  | .KEEP => "KEEP"

/-- The fragment produced by each `getResAql` return statement. -/
def resAqlFragment : ResAql → Fragment
  | .plain f a attrs =>
      [.lit (funcStr f), .lit "(", .lit a, .lit ", ", .bind (.strs attrs), .lit ")"]
  | .vertexEdge f a attrs =>
      [.lit "\x7b vertex: ", .lit (funcStr f), .lit "(", .lit a, .lit ", ",
       .bind (.strs attrs), .lit "), edge: ", .lit (funcStr f), .lit "(e, ",
       .bind (.strs attrs), .lit ") \x7d"]
  | .mergeFromTo f a attrs =>
      [.lit "MERGE(", .lit (funcStr f), .lit "(", .lit a, .lit ", ",
       .bind (.strs attrs), .lit "), \x7b_from: e._from, _to: e._to\x7d)"]

/-- Application of `UNSET`/`KEEP` with an attribute list to a document. -/
def applyFunc : Func → List String → Doc → Doc
  | .UNSET, attrs, d => unsetFn d attrs
  | .KEEP, attrs, d => keepFn d attrs

/-- The vertex-side document a `getResAql` projection returns, given the
vertex and edge documents. -/
def resVertexDoc (r : ResAql) (v e : Doc) : Doc :=
  match r with
  | .plain f _ attrs => applyFunc f attrs v
  | .vertexEdge f _ attrs => applyFunc f attrs v
  | .mergeFromTo f _ attrs =>
      mergeDoc (applyFunc f attrs v) [("_from", attrVal e "_from"), ("_to", attrVal e "_to")]

/-- The edge-side document of the `hasEdge` pair (empty for other shapes). -/
def resEdgeDoc (r : ResAql) (e : Doc) : Doc :=
  match r with
  | .vertexEdge f _ attrs => applyFunc f attrs e
  | _ => []

/-!
V2 `getStaticDataAql`: the code-to-label expansion wrapper.  Each branch of
the source is a template with at most one interpolation (the literal result
list name), so the branches are single literal chunks here.
-/

/-- The `_scode` expansion block (`options.convertStaticFlag`). -/
def staticConvertFrag : Fragment :=
  [.lit "\n      let types = (\n        for k in ATTRIBUTES(rt)\n          FILTER LIKE(k, \x27%_scode\x27)\n        return k\n      )\n      let staticRet = MERGE(\n        for t in static_data\n          filter t.type in types and t.code == rt[t.type]\n        return \x7b[CONCAT(t.type, \x27_name\x27)]: t.name\x7d\n      )"]

/-- The `_acode` expansion block (`options.convertAreaFlag`). -/
def areaConvertFrag : Fragment :=
  [.lit "\n      let areaTypes = (\n        for k in ATTRIBUTES(rt)\n          FILTER LIKE(k, \x27%_acode\x27)\n        return k\n      )\n      let areaRet = MERGE(\n        for at in areaTypes\n          let area_codes = (\n            for code in [CONCAT(LEFT(rt[at], 2), \x270000\x27), CONCAT(LEFT(rt[at], 4), \x2700\x27), rt[at]]\n            sort code\n            return distinct code\n          )\n          let area_code_name = concat(\n            for t in area_data\n              filter t.code in area_codes\n              sort t.code\n              return t.name\n          )\n          return \x7b[at]: area_codes, [CONCAT(at, \x27_name\x27)]: area_code_name\x7d\n      )"]

/-- V2 `getStaticDataAql(options, resList)`: a pass-through loop when no
convert flag is set, else the loop with the requested expansion blocks. -/
def getStaticDataAql (options : Option QueryOptions) (resList : Option String) : Fragment :=
  match options with
  | none => [.lit "for t in list return t"]
  | some o =>
      if !(optTrue o.convertStaticFlag || optTrue o.convertAreaFlag) then
        [.lit "for t in list return t"]
      else
        let rl := match resList with
          | none => "list"
          | some s => if s = "" then "list" else s
        let staticAql := if optTrue o.convertStaticFlag then staticConvertFrag
                         else [QPart.lit "let staticRet = \x7b\x7d"]
        let areaAql := if optTrue o.convertAreaFlag then areaConvertFrag
                       else [QPart.lit "let areaRet = \x7b\x7d"]
        [QPart.lit "\n    for rt in ", .lit rl, .lit "\n      "] ++ staticAql ++
          [QPart.lit "\n      "] ++ areaAql ++
          [QPart.lit "\n      return MERGE(rt, staticRet, areaRet)\n    "]

/-!
Pagination: `convertOffset` and the envelope the `getPage`-style queries
compute from the unsliced candidate list `ts` with `LET totalCount =
LENGTH(ts)`, `LET flag = (offset + count >= totalCount)`, `LET end = flag ?
totalCount : offset + count`, `LET hasMore = !flag` and `LIMIT offset,count`.
-/

/-- `convertOffset(page_num, page_size)`: `(page_num - 1) * page_size` when
both are truthy and `page_num > 0`, else `0`. -/
def convertOffset (page_num page_size : Int) : Int :=
  if page_num ≠ 0 ∧ page_size ≠ 0 ∧ page_num > 0 then (page_num - 1) * page_size else 0

/-- The page envelope `{total_count, has_more, end, items}`. -/
structure PageEnv (α : Type) where
  total_count : Int
  has_more : Bool
  end_ : Int
  items : List α
deriving Repr

/-- Denotation of the envelope computation of the paging queries, applied
to the filtered-and-sorted candidate list `ts` before slicing. -/
def pageEnvelope (ts : List α) (offset count : Int) : PageEnv α :=
  let totalCount : Int := ts.length
  let flag : Bool := decide (offset + count ≥ totalCount)
  PageEnv.mk totalCount (!flag) (if flag then totalCount else offset + count)
    ((ts.drop offset.toNat).take count.toNat)

/-!
Insert/update payload expressions shared by `save`, `saves`, `update`,
`updates` and `updatesEach`.
-/

/-- The inserted document of `save`/`saves`:
`MERGE(UNSET(doc, this.unset), { _create_date, _status: true })`. -/
def saveDocExpr (doc : Doc) (create_date : String) : Doc :=
  mergeDoc (unsetFn doc unsetAttrs)
    [("_create_date", .str create_date), ("_status", .bool true)]

/-- The update payload of `update`/`updates`/`updatesEach`:
`MERGE(UNSET(newObj, this.unset), { _update_date })`. -/
def updateDocExpr (newObj : Doc) (update_date : String) : Doc :=
  mergeDoc (unsetFn newObj unsetAttrs) [("_update_date", .str update_date)]

/-- AQL `UPDATE t WITH payload`: the stored document after the update. -/
def updateApply (t payload : Doc) : Doc :=
  mergeDoc t payload

/-!
Graph traversal soft-delete filters (the `FILTER` lines of the two
`getGraphVertices` variants).
-/

/-- A traversal path `p` with its vertex and edge lists. -/
structure GraphPath where
  vertices : List Doc
  edges : List Doc
deriving Repr

/-- Denotation of the V1 graph filter line
`FILTER v._status == true and e._status ...`: only the final vertex and
edge are tested, and the edge only for truthiness. -/
def v1GraphEndpointFilter (v e : Doc) : Bool :=
  (attrVal v "_status" == Scalar.bool true) && aqlTruthy (attrVal e "_status")

/-- Denotation of the V2 graph filter line
`FILTER p.vertices[*]._status ALL == true and p.edges[*]._status ALL == true`:
every vertex and edge along the path must have `_status == true`. -/
def v2GraphPathFilter (p : GraphPath) : Bool :=
  p.vertices.all (fun d => attrVal d "_status" == Scalar.bool true) &&
  p.edges.all (fun d => attrVal d "_status" == Scalar.bool true)

/-!
Dao operations.  Each operation is modelled as a function of the injected
connector `exec : Fragment → List α` (the black-box `this.arango.query(...).all()`),
returning its result together with the list of queries it issued.  A failed
`validateData` throws `BizError`, modelled as an error result; parameter
validation failures are tagged apart from result-shape validation failures.
The collection name (derived in the source from the Dao class name) is a
parameter.
-/

/-- A thrown business error: parameter validation or result validation. -/
inductive BizError
  | invalidParams
  | invalidResult
deriving DecidableEq, Repr

/-- `convertArrayToObject(arr)`: `null` for an empty result, else the first
row. -/
def convertArrayToObject (arr : List α) : Option α :=
  arr.head?

/-- Splice of an optional fragment: an interpolated `undefined` contributes
nothing to the query. -/
def spliceOpt (f : Option Fragment) : Fragment :=
  f.getD []

/-- V1 `getOne` query: `FOR t IN c FILTER t._id == @id && t._status == true
RETURN res`. -/
def v1GetOneQuery (collection _id : String) (res : ResAql) : Fragment :=
  [.lit "\n      FOR t IN ", .lit collection,
   .lit " \n        FILTER t._id == ", .bind (.sc (.str _id)),
   .lit " && t._status == true \n      RETURN "] ++ resAqlFragment res

/-- V1 `getOne(_params)`: validates `{_id, options}`, issues one query,
then checks the single-row bound (`Joi.array().max(1)`). -/
def v1GetOne (exec : Fragment → List α) (collection _id : String)
    (options : Option QueryOptions) : Except BizError (Option α) × List Fragment :=
  if !(_id != "" && optionsOkV1 options) then (.error .invalidParams, [])
  else
    let q := v1GetOneQuery collection _id (v1GetResAql options none)
    let objs := exec q
    if objs.length > 1 then (.error .invalidResult, [q])
    else (.ok (convertArrayToObject objs), [q])

/-- V1 `getOneByFilter` query. -/
def v1GetOneByFilterQuery (collection : String) (filterAql : Option Fragment)
    (res : ResAql) : Fragment :=
  [.lit "\n      FOR t IN ", .lit collection,
   .lit " \n        FILTER t._status == true "] ++ spliceOpt filterAql ++
  [.lit "\n      RETURN "] ++ resAqlFragment res

/-- V1 `getOneByFilter(_params)`: validates `{filter, options}` with the
minimum-one-attribute filter schema, issues one query, then checks the
single-row bound. -/
def v1GetOneByFilter (exec : Fragment → List α) (collection : String)
    (filter : FilterObj) (options : Option QueryOptions) :
    Except BizError (Option α) × List Fragment :=
  if !(filterMinOk filter && optionsOkV1 options) then (.error .invalidParams, [])
  else
    let q := v1GetOneByFilterQuery collection (v1GetFilterAql (some filter) none)
      (v1GetResAql options none)
    let objs := exec q
    if objs.length > 1 then (.error .invalidResult, [q])
    else (.ok (convertArrayToObject objs), [q])

/-- Parameters of `getPage`. -/
structure PageParams where
  page_num : Int
  page_size : Int
  filter : Option FilterObj := none
  like : Option LikeObj := none
  sorts : Option (List SortItem) := none
  options : Option QueryOptions := none

/-- V1 `getPage` parameter validation. -/
def v1GetPageOk (p : PageParams) : Bool :=
  filterCommonOkV1 p.filter && likeOk p.like && sortsOk p.sorts && optionsOkV1 p.options

/-- V1 `getPage` query: the candidate set `ts` (filter, like, sort), the
sliced `tsl`, and the envelope derived from `LENGTH(ts)` in one statement. -/
def v1GetPageQuery (collection collections : String) (filterAql orAql andAql : Option Fragment)
    (sortAql : Fragment) (res : ResAql) (offset count : Int) : Fragment :=
  [.lit "\n      LET ts = ( \n        FOR t IN ", .lit collection,
   .lit " \n          FILTER t._status == true "] ++ spliceOpt filterAql ++
  [.lit " "] ++ spliceOpt orAql ++ [.lit " "] ++ spliceOpt andAql ++
  [.lit " \n          "] ++ sortAql ++
  [.lit "\n        RETURN "] ++ resAqlFragment res ++
  [.lit " \n      ) \n      LET tsl = ( \n        FOR tl IN ts \n          LIMIT ",
   .bind (.sc (.num offset)), .lit ",", .bind (.sc (.num count)),
   .lit " \n        RETURN tl \n      ) \n      LET totalCount = LENGTH(ts) \n      LET flag = (",
   .bind (.sc (.num offset)), .lit " + ", .bind (.sc (.num count)),
   .lit " >= totalCount) \n      LET end = flag ? totalCount : ",
   .bind (.sc (.num offset)), .lit " + ", .bind (.sc (.num count)),
   .lit " \n      LET hasMore = !flag \n      RETURN \x7btotal_count:totalCount, has_more:hasMore, end:end, ",
   .lit collections, .lit ":tsl\x7d"]

/-- V1 `getPage(_params)`: validates, converts the page parameters, builds
the fragments and issues the single combined query. -/
def v1GetPage (exec : Fragment → List α) (collection collections : String)
    (p : PageParams) : Except BizError (Option α) × List Fragment :=
  if !v1GetPageOk p then (.error .invalidParams, [])
  else
    let offset := convertOffset p.page_num p.page_size
    let count := p.page_size
    let lk := v1GetLikeAql p.like none
    let q := v1GetPageQuery collection collections (v1GetFilterAql p.filter none)
      lk.1 lk.2 (v1GetSortAql (v1GetSortFieldAqlList p.sorts none))
      (v1GetResAql p.options none) offset count
    (.ok (convertArrayToObject (exec q)), [q])

/-- V1 `save` query: `INSERT MERGE(UNSET(@doc, @unset), { _create_date,
_status: true }) INTO c RETURN {_id: NEW._id}`. -/
def v1SaveQuery (collection : String) (doc : Doc) (create_date : String) : Fragment :=
  [.lit "\n      INSERT MERGE(UNSET(", .bind (.doc doc), .lit ", ", .bind (.strs unsetAttrs),
   .lit "), \x7b _create_date:", .bind (.sc (.str create_date)),
   .lit ", _status: true \x7d) \n      INTO ", .lit collection,
   .lit " \n      RETURN \x7b_id: NEW._id\x7d"]

/-- V1 `save(doc)`: validates the document, issues one insert, then checks
that exactly one row came back (`Joi.array().length(1)`). -/
def v1Save (exec : Fragment → List α) (collection : String) (doc : Doc)
    (create_date : String) : Except BizError (Option α) × List Fragment :=
  if !docMinOk doc then (.error .invalidParams, [])
  else
    let q := v1SaveQuery collection doc create_date
    let objs := exec q
    if objs.length ≠ 1 then (.error .invalidResult, [q])
    else (.ok (convertArrayToObject objs), [q])

/-- V1 `saves` query: the bulk insert over the bound document array. -/
def v1SavesQuery (collection : String) (docs : List Doc) (create_date : String) : Fragment :=
  [.lit "\n    let tsl = (\n      FOR t IN ", .bind (.docs docs),
   .lit "\n        INSERT MERGE(UNSET(t, ", .bind (.strs unsetAttrs),
   .lit "), \x7b _create_date:", .bind (.sc (.str create_date)),
   .lit ", _status: true \x7d) \n        INTO ", .lit collection,
   .lit " \n      RETURN NEW._id\n    )\n    RETURN \x7b_ids: tsl\x7d"]

/-- V1 `saves(docs)`: validates the array (min one, each document passing
the minimum filter schema), issues one query, checks a non-empty result. -/
def v1Saves (exec : Fragment → List α) (collection : String) (docs : List Doc)
    (create_date : String) : Except BizError (Option α) × List Fragment :=
  if !(!docs.isEmpty && docs.all docMinOk) then (.error .invalidParams, [])
  else
    let q := v1SavesQuery collection docs create_date
    let objs := exec q
    if objs.isEmpty then (.error .invalidResult, [q])
    else (.ok (convertArrayToObject objs), [q])

/-- V1 `update` query: `LET key = PARSE_IDENTIFIER(@id).key UPDATE key WITH
MERGE(UNSET(@newObj, @unset), { _update_date }) IN c RETURN {_id: NEW._id}`. -/
def v1UpdateQuery (collection _id : String) (newObj : Doc) (update_date : String) : Fragment :=
  [.lit "\n    LET key = PARSE_IDENTIFIER(", .bind (.sc (.str _id)),
   .lit ").key \n    UPDATE key WITH MERGE(UNSET(", .bind (.doc newObj),
   .lit ", ", .bind (.strs unsetAttrs), .lit "), \x7b _update_date:",
   .bind (.sc (.str update_date)), .lit "\x7d)\n    IN ", .lit collection,
   .lit " \n    RETURN \x7b_id: NEW._id\x7d"]

/-- V1 `update(_params)`: validates `{_id, newObj}`, issues one query,
checks that exactly one row came back. -/
def v1Update (exec : Fragment → List α) (collection _id : String) (newObj : Doc)
    (update_date : String) : Except BizError (Option α) × List Fragment :=
  if !(_id != "" && docMinOk newObj) then (.error .invalidParams, [])
  else
    let q := v1UpdateQuery collection _id newObj update_date
    let objs := exec q
    if objs.length ≠ 1 then (.error .invalidResult, [q])
    else (.ok (convertArrayToObject objs), [q])

/-- V1 `delete` (soft delete) query. -/
def v1DeleteQuery (collection _id : String) : Fragment :=
  [.lit "\n      LET key = PARSE_IDENTIFIER(", .bind (.sc (.str _id)),
   .lit ").key \n      UPDATE key WITH \x7b _status: false \x7d \n      IN ",
   .lit collection, .lit "  \n      RETURN \x7b_id: NEW._id\x7d"]

/-- V1 `delete(_id)`: not a real delete; sets `_status` to `false`. -/
def v1Delete (exec : Fragment → List α) (collection _id : String) :
    Except BizError (Option α) × List Fragment :=
  if !(_id != "") then (.error .invalidParams, [])
  else
    let q := v1DeleteQuery collection _id
    let objs := exec q
    if objs.length ≠ 1 then (.error .invalidResult, [q])
    else (.ok (convertArrayToObject objs), [q])

/-- V1 `physicalDelete` query: the only `REMOVE` in the Dao. -/
def v1PhysicalDeleteQuery (collection _id : String) : Fragment :=
  [.lit "\n      LET key = PARSE_IDENTIFIER(", .bind (.sc (.str _id)),
   .lit ").key \n      REMOVE key IN ", .lit collection,
   .lit " \n      RETURN \x7b_id: OLD._id\x7d"]

/-- V1 `physicalDelete(_id)`. -/
def v1PhysicalDelete (exec : Fragment → List α) (collection _id : String) :
    Except BizError (Option α) × List Fragment :=
  if !(_id != "") then (.error .invalidParams, [])
  else
    let q := v1PhysicalDeleteQuery collection _id
    let objs := exec q
    if objs.length ≠ 1 then (.error .invalidResult, [q])
    else (.ok (convertArrayToObject objs), [q])

/-- V2 `getOne` query: the `LET list = (...)` wrapper feeding
`getStaticDataAql`. -/
def v2GetOneQuery (collection _id : String) (res : ResAql) (staticData : Fragment) : Fragment :=
  [.lit "\n      LET list = (\n        FOR t IN ", .lit collection,
   .lit " \n          FILTER t._id == ", .bind (.sc (.str _id)),
   .lit " && t._status == true \n        RETURN "] ++ resAqlFragment res ++
  [.lit "\n      )\n      "] ++ staticData

/-- V2 `getOne(_params)`: still checks the single-row bound. -/
def v2GetOne (exec : Fragment → List α) (collection _id : String)
    (options : Option QueryOptions) : Except BizError (Option α) × List Fragment :=
  if !(_id != "" && optionsOkV2 options) then (.error .invalidParams, [])
  else
    let q := v2GetOneQuery collection _id (v2GetResAql options none)
      (getStaticDataAql options none)
    let objs := exec q
    if objs.length > 1 then (.error .invalidResult, [q])
    else (.ok (convertArrayToObject objs), [q])

/-- V2 `getOneByFilter` query: adds `SORT t._create_date desc` before the
return. -/
def v2GetOneByFilterQuery (collection : String) (filterAql : Option Fragment)
    (res : ResAql) (staticData : Fragment) : Fragment :=
  [.lit "\n      LET list = (\n        FOR t IN ", .lit collection,
   .lit " \n          FILTER t._status == true "] ++ spliceOpt filterAql ++
  [.lit "\n          SORT t._create_date desc \n        RETURN "] ++ resAqlFragment res ++
  [.lit "\n      )\n      "] ++ staticData

/-- V2 `getOneByFilter(_params)`: the uniqueness check of V1 is commented
out (`// TODO:验证唯一性`); the first row of the sorted result is returned
unconditionally. -/
def v2GetOneByFilter (exec : Fragment → List α) (collection : String)
    (filter : FilterObj) (options : Option QueryOptions) :
    Except BizError (Option α) × List Fragment :=
  if !(filterMinOk filter && optionsOkV2 options) then (.error .invalidParams, [])
  else
    let q := v2GetOneByFilterQuery collection (getFilterAql (some filter) none)
      (v2GetResAql options none) (getStaticDataAql options none)
    (.ok (convertArrayToObject (exec q)), [q])

/-!
V2 `getGraphVertices`.  The traversal depth and the start vertex id are
passed through `aql.literal` and therefore appear verbatim in the query
text (the start id inside single quotes), unlike every other request value.
-/

/-- `getWithCollectionNames()`: drop the first `_graph`, then join the
`_to_`-separated names with commas. -/
def getWithCollectionNames (collectionName : String) : String :=
  let replaced :=
    match collectionName.splitOn "_graph" with
    | [] => collectionName
    | [s] => s
    | s :: rest => s ++ String.intercalate "_graph" rest
  String.intercalate "," (replaced.splitOn "_to_")

/-- V2 depth literal: `0` by default; for positive depth, the bare hop
count when `options.depthLimit` is set or the depth is `1`, else the range
`1..depth`. -/
def v2GraphDepthStr (depth : Int) (options : Option QueryOptions) : String :=
  if depth ≠ 0 ∧ depth > 0 then
    if ((match options with | some o => optTrue o.depthLimit | none => false) || depth == 1) then
      toString depth
    else "1.." ++ toString depth
  else "0"

/-- Parameters of `getGraphVertices`. -/
structure GraphParams where
  start_id : String
  depth : Int
  v_filter : Option FilterObj := none
  e_filter : Option FilterObj := none
  v_sorts : Option (List SortItem) := none
  e_sorts : Option (List SortItem) := none
  options : Option QueryOptions := none

/-- V2 `getGraphVertices` query.  Note the inlined literals: the depth, the
direction, the start id (inside `\x27` quotes) and the graph name. -/
def v2GraphVerticesQuery (withNames collection direction depthStr startId : String)
    (vFilterAql eFilterAql : Option Fragment) (sortAql : Fragment)
    (res : ResAql) (staticData : Fragment) : Fragment :=
  [.lit "\n      WITH ", .lit withNames,
   .lit "\n      LET tsl = (\n        LET list = (\n          FOR v, e, p\n          IN ",
   .lit depthStr, .lit "\n          ", .lit direction, .lit " \x27", .lit startId,
   .lit "\x27\n          GRAPH \x27", .lit collection,
   .lit "\x27\n          //OPTIONS \x7b bfs: true, uniqueVertices: \x27path\x27 \x7d\n          //FILTER v._status == true and e._status == true\n          FILTER p.vertices[*]._status ALL == true and p.edges[*]._status ALL == true\n          "] ++
  spliceOpt vFilterAql ++ [.lit " "] ++ spliceOpt eFilterAql ++
  [.lit "\n            "] ++ sortAql ++
  [.lit "\n          // 每一项取最后两个数据作为父子关系\n          // RETURN p.vertices[*] \n          // 直接拼接父子关联\n          RETURN "] ++
  resAqlFragment res ++
  [.lit "\n        )\n        "] ++ staticData ++
  [.lit "\n      )\n      RETURN tsl"]

/-- V2 `getGraphVertices(direction, _params)`: validates the direction and
the parameter object, then builds the depth/start literals, the filters,
the sorts (edge sorts first when given), the projection and the static-data
wrapper, and issues the single traversal query. -/
def v2GetGraphVertices (exec : Fragment → List α) (collection direction : String)
    (p : GraphParams) : Except BizError (Option α) × List Fragment :=
  if !(["OUTBOUND", "INBOUND", "ANY"].contains direction) then (.error .invalidParams, [])
  else if !(p.start_id != "" && sortsOk p.v_sorts && sortsOk p.e_sorts &&
            optionsOkV2 p.options) then (.error .invalidParams, [])
  else
    let depthStr := v2GraphDepthStr p.depth p.options
    let vFilterAql := match p.v_filter with
      | some f => getFilterAql (some f) (some "v")
      | none => none
    let eFilterAql := match p.e_filter with
      | some f => getFilterAql (some f) (some "e")
      | none => none
    let eSortAqlList := v2GetSortFieldAqlList p.e_sorts (some "e")
    let vSortAqlList := v2GetSortFieldAqlList p.v_sorts (some "v")
    let allSortAqlList := if p.e_sorts.isSome then eSortAqlList ++ vSortAqlList
                          else vSortAqlList ++ eSortAqlList
    let q := v2GraphVerticesQuery (getWithCollectionNames collection) collection direction
      depthStr p.start_id vFilterAql eFilterAql (v2GetSortAql allSortAqlList)
      (v2GetResAql p.options (some "v")) (getStaticDataAql p.options none)
    (.ok (convertArrayToObject (exec q)), [q])

/-!
Helper lemmas about association-list lookups, permutations and the
fragment-list fold.
-/

theorem lookupDoc_cons (k' : String) (v : Scalar) (l : Doc) (k : String) :
    lookupDoc ((k', v) :: l) k = if k' == k then some v else lookupDoc l k := by
  by_cases h : k' == k <;> simp [lookupDoc, List.find?_cons, h]

theorem lookupDoc_filter_none (p : String × Scalar → Bool) (k : String)
    (h : ∀ v, p (k, v) = false) (d : Doc) :
    lookupDoc (d.filter p) k = none := by
  induction d with
  | nil => rfl
  | cons kv rest ih =>
      obtain ⟨k', v⟩ := kv
      by_cases hk : k' = k
      · subst hk
        simp [List.filter_cons, h v, ih]
      · by_cases hp : p (k', v) = true
        · simpa [List.filter_cons, hp, lookupDoc_cons, hk] using ih
        · simp only [Bool.not_eq_true] at hp
          simp [List.filter_cons, hp, ih]

theorem lookupDoc_filter_keepAll (p : String × Scalar → Bool) (k : String)
    (h : ∀ v, p (k, v) = true) (d : Doc) :
    lookupDoc (d.filter p) k = lookupDoc d k := by
  induction d with
  | nil => rfl
  | cons kv rest ih =>
      obtain ⟨k', v⟩ := kv
      by_cases hk : k' = k
      · subst hk
        simp [List.filter_cons, h v, lookupDoc_cons, ih]
      · by_cases hp : p (k', v) = true
        · simp [List.filter_cons, hp, lookupDoc_cons, hk, ih]
        · simp only [Bool.not_eq_true] at hp
          simp [List.filter_cons, hp, lookupDoc_cons, hk, ih]

theorem lookupDoc_filter_of_none (p : String × Scalar → Bool) (k : String) (d : Doc)
    (h : lookupDoc d k = none) :
    lookupDoc (d.filter p) k = none := by
  induction d with
  | nil => rfl
  | cons kv rest ih =>
      obtain ⟨k', v⟩ := kv
      rw [lookupDoc_cons] at h
      by_cases hk : (k' == k) = true
      · simp [hk] at h
      · simp only [Bool.not_eq_true] at hk
        simp only [hk, if_false] at h
        by_cases hp : p (k', v) = true
        · simp [List.filter_cons, hp, lookupDoc_cons, hk, ih h]
        · simp only [Bool.not_eq_true] at hp
          simp [List.filter_cons, hp, ih h]

theorem lookupDoc_append (l1 l2 : Doc) (k : String) :
    lookupDoc (l1 ++ l2) k =
      match lookupDoc l1 k with
      | some v => some v
      | none => lookupDoc l2 k := by
  induction l1 with
  | nil => simp [lookupDoc]
  | cons kv rest ih =>
      obtain ⟨k', v⟩ := kv
      by_cases hk : (k' == k) = true
      · simp [lookupDoc_cons, hk]
      · simp only [Bool.not_eq_true] at hk
        simp [List.cons_append, lookupDoc_cons, hk, ih]

theorem lookupDoc_none_of_not_contains (d : Doc) (k : String)
    (h : (d.map (·.1)).contains k = false) :
    lookupDoc d k = none := by
  induction d with
  | nil => rfl
  | cons kv rest ih =>
      obtain ⟨k', v⟩ := kv
      simp only [List.map_cons, List.contains_cons, Bool.or_eq_false_iff] at h
      have hk : (k' == k) = false := by
        have h1 := h.1
        cases hkk : k' == k
        · rfl
        · exfalso
          have hkeq : k' = k := beq_iff_eq.mp hkk
          subst hkeq
          simp at h1
      rw [lookupDoc_cons, hk]
      simpa using ih h.2

theorem contains_of_lookupDoc_some (d : Doc) (k : String) (v : Scalar)
    (h : lookupDoc d k = some v) :
    (d.map (·.1)).contains k = true := by
  induction d with
  | nil => simp [lookupDoc] at h
  | cons kv rest ih =>
      obtain ⟨k', w⟩ := kv
      rw [lookupDoc_cons] at h
      by_cases hk : (k' == k) = true
      · have : k' = k := beq_iff_eq.mp hk
        subst this
        simp
      · simp only [Bool.not_eq_true] at hk
        rw [hk] at h
        simp only [Bool.false_eq_true, if_false] at h
        rw [List.map_cons, List.contains_cons, ih h, Bool.or_true]

theorem lookupDoc_mergeDoc (a b : Doc) (k : String) :
    lookupDoc (mergeDoc a b) k =
      if (b.map (·.1)).contains k then lookupDoc b k else lookupDoc a k := by
  unfold mergeDoc
  rw [lookupDoc_append]
  by_cases hb : (b.map (·.1)).contains k = true
  · have ha : lookupDoc (a.filter (fun kv => !(b.map (·.1)).contains kv.1)) k = none := by
      apply lookupDoc_filter_none
      intro v
      show (!(b.map (·.1)).contains k) = false
      rw [hb]
      rfl
    rw [ha, hb]
    rfl
  · simp only [Bool.not_eq_true] at hb
    have ha : lookupDoc (a.filter (fun kv => !(b.map (·.1)).contains kv.1)) k = lookupDoc a k := by
      apply lookupDoc_filter_keepAll
      intro v
      show (!(b.map (·.1)).contains k) = true
      rw [hb]
      rfl
    have hbnone : lookupDoc b k = none := lookupDoc_none_of_not_contains b k hb
    rw [ha, hbnone, hb]
    simp only [Bool.false_eq_true, if_false]
    cases lookupDoc a k <;> rfl

theorem all_of_perm (p : α → Bool) {l₁ l₂ : List α} (h : l₁.Perm l₂) :
    l₁.all p = l₂.all p := by
  induction h with
  | nil => rfl
  | cons x _ ih => simp [List.all_cons, ih]
  | swap x y l => simp [List.all_cons, ← Bool.and_assoc, Bool.and_comm]
  | trans _ _ ih1 ih2 => rw [ih1, ih2]

/-- The V2 `getFilterAql` loop, however interleaved its input shapes, is a
three-way partition that preserves per-class iteration order. -/
theorem getFilterAqlLists_partition (a : String) (entries : FilterObj) :
    ∀ acc : List Fragment × List Fragment × List Fragment,
      entries.foldl (filterStep a) acc =
        (acc.1 ++ entries.filterMap (fun kv =>
            match kv.2 with
            | .arr vs => some (inFrag a kv.1 vs)
            | .scalar v => some (eqFrag a kv.1 v)
            | .obj _ _ => none),
         acc.2.1 ++ entries.filterMap (fun kv =>
            match kv.2 with
            | .obj opr value =>
                if opr = "POSITION" then none else some (oprFrag a kv.1 opr value)
            | _ => none),
         acc.2.2 ++ entries.filterMap (fun kv =>
            match kv.2 with
            | .obj opr value =>
                if opr = "POSITION" then some (getArrayAttrAql a kv.1 value) else none
            | _ => none)) := by
  induction entries with
  | nil => intro acc; simp
  | cons kv rest ih =>
      intro acc
      obtain ⟨k, v⟩ := kv
      cases v with
      | scalar w =>
          simp [List.foldl_cons, filterStep, ih, List.filterMap_cons]
      | arr vs =>
          simp [List.foldl_cons, filterStep, ih, List.filterMap_cons]
      | obj opr value =>
          by_cases hp : opr = "POSITION"
          · simp [List.foldl_cons, filterStep, hp, ih, List.filterMap_cons]
          · simp [List.foldl_cons, filterStep, hp, ih, List.filterMap_cons]

theorem v2CommaInterleave_eq_intersperse (l : List Fragment) (x : Fragment) :
    x :: v2CommaInterleave l = List.intersperse [QPart.lit ", "] (x :: l) := by
  induction l generalizing x with
  | nil => rfl
  | cons y rest ih =>
      rw [v2CommaInterleave]
      rw [List.intersperse_cons_cons]
      rw [← ih y]

/-!
Claim theorems.
-/

/-- C5: For every filter mapping mixing scalar/array entries, structured
`{opr, value}` entries and `POSITION` (membership-reversal) entries, V2
`getFilterAql` emits all equality/membership fragments first, then all
comparator fragments, then all membership-reversal fragments, each group
preserving key iteration order, and joins them in exactly that order. -/
theorem c5_filter_fragment_order (entries : FilterObj) (a : String) :
    getFilterAqlLists entries a =
      (entries.filterMap (fun kv =>
          match kv.2 with
          | .arr vs => some (inFrag a kv.1 vs)
          | .scalar v => some (eqFrag a kv.1 v)
          | .obj _ _ => none),
       entries.filterMap (fun kv =>
          match kv.2 with
          | .obj opr value =>
              if opr = "POSITION" then none else some (oprFrag a kv.1 opr value)
          | _ => none),
       entries.filterMap (fun kv =>
          match kv.2 with
          | .obj opr value =>
              if opr = "POSITION" then some (getArrayAttrAql a kv.1 value) else none
          | _ => none)) ∧
    getFilterAql (some entries) (some a) =
      (if ((getFilterAqlLists entries a).1 ++ (getFilterAqlLists entries a).2.1 ++
            (getFilterAqlLists entries a).2.2).isEmpty then none
       else some (aqlJoin ((getFilterAqlLists entries a).1 ++
            (getFilterAqlLists entries a).2.1 ++ (getFilterAqlLists entries a).2.2))) := by
  constructor
  · simpa using getFilterAqlLists_partition a entries ([], [], [])
  · rfl

/-- Whether a filter entry is a plain scalar or array entry. -/
def simpleEntry : FilterValue → Bool
  | .scalar _ => true
  | .arr _ => true
  | .obj _ _ => false

/-- The single fragment a scalar or array entry contributes. -/
def simpleFrag (a : String) (kv : String × FilterValue) : Fragment :=
  match kv.2 with
  | .scalar v => eqFrag a kv.1 v
  | .arr vs => inFrag a kv.1 vs
  | .obj _ _ => []

/-- Meaning of one scalar/array conjunct over a document: the fragment
` and alias.key == @v` tests attribute equality (a missing attribute reads
as null) and ` and alias.key in @vs` tests membership; `{opr, value}`
comparators are engine-defined and read as true here. -/
def conjSem (doc : Doc) : String × FilterValue → Bool
  | (k, .scalar v) => attrVal doc k == v
  | (k, .arr vs) => vs.contains (attrVal doc k)
  | (_, .obj _ _) => true

/-- Meaning of the and-joined conjunction that `getFilterAql` produces. -/
def filterSem (entries : FilterObj) (doc : Doc) : Bool :=
  entries.all (conjSem doc)

theorem filterMap_simple_eq_map (a : String) (l : FilterObj)
    (hs : ∀ kv ∈ l, simpleEntry kv.2 = true) :
    l.filterMap (fun kv =>
        match kv.2 with
        | .arr vs => some (inFrag a kv.1 vs)
        | .scalar v => some (eqFrag a kv.1 v)
        | .obj _ _ => none) = l.map (simpleFrag a) := by
  induction l with
  | nil => rfl
  | cons kv rest ih =>
      obtain ⟨k, v⟩ := kv
      have hkv : simpleEntry v = true := hs (k, v) (List.mem_cons_self _ _)
      have hrest : ∀ kv ∈ rest, simpleEntry kv.2 = true :=
        fun kv hm => hs kv (List.mem_cons_of_mem _ hm)
      cases v with
      | scalar w => simp [List.filterMap_cons, List.map_cons, simpleFrag, ih hrest]
      | arr vs => simp [List.filterMap_cons, List.map_cons, simpleFrag, ih hrest]
      | obj opr value => simp [simpleEntry] at hkv

theorem filterMap_simple_opr_nil (a : String) (l : FilterObj)
    (hs : ∀ kv ∈ l, simpleEntry kv.2 = true) :
    l.filterMap (fun kv =>
        match kv.2 with
        | .obj opr value =>
            if opr = "POSITION" then none else some (oprFrag a kv.1 opr value)
        | _ => none) = [] := by
  induction l with
  | nil => rfl
  | cons kv rest ih =>
      obtain ⟨k, v⟩ := kv
      have hkv : simpleEntry v = true := hs (k, v) (List.mem_cons_self _ _)
      have hrest : ∀ kv ∈ rest, simpleEntry kv.2 = true :=
        fun kv hm => hs kv (List.mem_cons_of_mem _ hm)
      cases v with
      | scalar w => simpa [List.filterMap_cons] using ih hrest
      | arr vs => simpa [List.filterMap_cons] using ih hrest
      | obj opr value => simp [simpleEntry] at hkv

theorem filterMap_simple_pos_nil (a : String) (l : FilterObj)
    (hs : ∀ kv ∈ l, simpleEntry kv.2 = true) :
    l.filterMap (fun kv =>
        match kv.2 with
        | .obj opr value =>
            if opr = "POSITION" then some (getArrayAttrAql a kv.1 value) else none
        | _ => none) = [] := by
  induction l with
  | nil => rfl
  | cons kv rest ih =>
      obtain ⟨k, v⟩ := kv
      have hkv : simpleEntry v = true := hs (k, v) (List.mem_cons_self _ _)
      have hrest : ∀ kv ∈ rest, simpleEntry kv.2 = true :=
        fun kv hm => hs kv (List.mem_cons_of_mem _ hm)
      cases v with
      | scalar w => simpa [List.filterMap_cons] using ih hrest
      | arr vs => simpa [List.filterMap_cons] using ih hrest
      | obj opr value => simp [simpleEntry] at hkv

/-- C4: For every filter mapping whose values are only scalars or arrays,
V2 `getFilterAql` produces a conjunction with exactly one fragment per key
(`alias.field == value` for a scalar, `alias.field in value` for an array,
each fragment carrying its own ` and `), and the denoted predicate is the
same for any permutation of the key iteration order. -/
theorem c4_simple_filter_conjunction (entries entries2 : FilterObj) (a : String) (doc : Doc)
    (hs : ∀ kv ∈ entries, simpleEntry kv.2 = true)
    (hp : entries.Perm entries2) :
    getFilterAqlLists entries a = (entries.map (simpleFrag a), [], []) ∧
    (entries ≠ [] →
      getFilterAql (some entries) (some a) = some (aqlJoin (entries.map (simpleFrag a)))) ∧
    filterSem entries doc = filterSem entries2 doc := by
  have hpart := getFilterAqlLists_partition a entries ([], [], [])
  have h1 : getFilterAqlLists entries a = (entries.map (simpleFrag a), [], []) := by
    rw [getFilterAqlLists, hpart]
    rw [filterMap_simple_eq_map a entries hs, filterMap_simple_opr_nil a entries hs,
        filterMap_simple_pos_nil a entries hs]
    simp
  refine ⟨h1, ?_, all_of_perm (conjSem doc) hp⟩
  intro hne
  rw [getFilterAql]
  simp only [Option.getD_some]
  rw [h1]
  simp [hne]

/-- Witness for C4 at a concrete two-key filter and its swap. -/
theorem c4_simple_filter_conjunction_witness :
    filterSem [("name", FilterValue.scalar (.str "Alice")),
               ("tags", FilterValue.arr [.num 1, .num 2])]
        [("name", Scalar.str "Alice")] =
      filterSem [("tags", FilterValue.arr [.num 1, .num 2]),
                 ("name", FilterValue.scalar (.str "Alice"))]
        [("name", Scalar.str "Alice")] ∧
    getFilterAqlLists [("name", FilterValue.scalar (.str "Alice")),
                       ("tags", FilterValue.arr [.num 1, .num 2])] "t" =
      ([eqFrag "t" "name" (.str "Alice"), inFrag "t" "tags" [.num 1, .num 2]], [], []) := by
  have h := c4_simple_filter_conjunction
    [("name", FilterValue.scalar (.str "Alice")), ("tags", FilterValue.arr [.num 1, .num 2])]
    [("tags", FilterValue.arr [.num 1, .num 2]), ("name", FilterValue.scalar (.str "Alice"))]
    "t" [("name", Scalar.str "Alice")]
    (by decide) (by decide)
  exact ⟨h.2.2, h.1⟩

/-- C9 counterexample: with an absent sort specification, the V1 builder
(src/app/dao/base.js line 244) produces a single default fragment sorting
by `_create_date desc`, not by the record identifier `_id` that the claim
demands (and that V2 produces), so the claim fails on V1 as stated. -/
theorem c9_counterexample :
    v1GetSortFieldAqlList none none =
      [[QPart.lit " ", QPart.lit "t", QPart.lit "._create_date desc "]] ∧
    v2GetSortFieldAqlList none none =
      [[QPart.lit " ", QPart.lit "t", QPart.lit "._id "]] ∧
    ([[QPart.lit " ", QPart.lit "t", QPart.lit "._create_date desc "]] : List Fragment) ≠
      [[QPart.lit " ", QPart.lit "t", QPart.lit "._id "]] :=
  ⟨rfl, rfl, by decide⟩

/-- C9 (amended): with an absent sort specification the later variant (V2)
produces exactly one default fragment naming the record identifier `_id`,
while the earlier variant (V1) defaults to `_create_date desc`; in both
claims' variants a non-empty specification yields one fragment per
`{field, direction}` pair, joined by commas after a single SORT keyword —
stated here for V2, whose `getSortAql` inserts `, ` between entries. -/
theorem c9_sort_clause (al : Option String) (sorts : List SortItem)
    (hne : sorts ≠ []) :
    v2GetSortFieldAqlList none al =
      [[QPart.lit " ", QPart.lit (al.getD "t"), QPart.lit "._id "]] ∧
    v1GetSortFieldAqlList none al = [v1SortDefaultFrag (al.getD "t")] ∧
    v2GetSortAql (v2GetSortFieldAqlList (some sorts) al) =
      aqlJoin ([QPart.lit " SORT"] ::
        List.intersperse [QPart.lit ", "] (sorts.map (v2SortFieldFrag (al.getD "t")))) := by
  refine ⟨rfl, rfl, ?_⟩
  cases sorts with
  | nil => exact absurd rfl hne
  | cons x rest =>
      show v2GetSortAql (List.map (v2SortFieldFrag (al.getD "t")) (x :: rest)) = _
      rw [List.map_cons, v2GetSortAql, v2CommaInterleave_eq_intersperse]

/-- Witness for C9 at a one-entry sort specification. -/
theorem c9_sort_clause_witness :
    v2GetSortFieldAqlList none none = [[QPart.lit " ", QPart.lit "t", QPart.lit "._id "]] ∧
    v2GetSortAql (v2GetSortFieldAqlList (some [⟨"name", some "asc"⟩]) none) =
      aqlJoin ([QPart.lit " SORT"] :: List.intersperse [QPart.lit ", "]
        ([(⟨"name", some "asc"⟩ : SortItem)].map (v2SortFieldFrag "t"))) := by
  have h := c9_sort_clause none [⟨"name", some "asc"⟩] (by decide)
  exact ⟨h.1, h.2.2⟩

/-- C2: For integer `page_num ≥ 1`, `page_size ≥ 1`, the computed offset is
`(page_num - 1) * page_size` (and 0 when `page_num` is invalid), and the
envelope computed by the single `getPage` query from the filtered-and-sorted
candidate list `ts` satisfies `end = min(offset + page_size, total_count)`
and `has_more = (offset + page_size < total_count)` with
`total_count = LENGTH(ts)` taken before slicing; `getPage` issues at most
one query. -/
theorem c2_page_envelope (pn ps : Int) (ts : List β)
    (h1 : 1 ≤ pn) (h2 : 1 ≤ ps) :
    convertOffset pn ps = (pn - 1) * ps ∧
    (pageEnvelope ts (convertOffset pn ps) ps).end_ =
      min (convertOffset pn ps + ps) (ts.length : Int) ∧
    (pageEnvelope ts (convertOffset pn ps) ps).has_more =
      decide (convertOffset pn ps + ps < (ts.length : Int)) ∧
    (pageEnvelope ts (convertOffset pn ps) ps).total_count = (ts.length : Int) ∧
    (∀ pn' ps' : Int, pn' ≤ 0 → convertOffset pn' ps' = 0) ∧
    (∀ (exec : Fragment → List β) (collection collections : String) (p : PageParams),
      (v1GetPage exec collection collections p).2.length ≤ 1) := by
  have hoff : convertOffset pn ps = (pn - 1) * ps := by
    rw [convertOffset, if_pos]
    exact ⟨by omega, by omega, by omega⟩
  refine ⟨hoff, ?_, ?_, rfl, fun pn' ps' hp => ?_, fun exec c cs p => ?_⟩
  · show (if decide (convertOffset pn ps + ps ≥ (ts.length : Int)) then ((ts.length : Int))
          else convertOffset pn ps + ps) = _
    by_cases hf : convertOffset pn ps + ps ≥ (ts.length : Int)
    · rw [decide_eq_true hf, if_pos rfl, min_eq_right hf]
    · rw [decide_eq_false hf, if_neg Bool.false_ne_true,
          min_eq_left (le_of_lt (lt_of_not_ge hf))]
  · show (!decide (convertOffset pn ps + ps ≥ (ts.length : Int))) = _
    rw [← decide_not]
    exact decide_eq_decide.mpr (by omega)
  · rw [convertOffset, if_neg]
    intro hcon
    omega
  · rw [v1GetPage]
    by_cases hv : v1GetPageOk p = true
    · simp [hv]
    · simp [hv]

/-- Witness for C2 at page 2 of size 3 over a five-element candidate set. -/
theorem c2_page_envelope_witness :
    convertOffset 2 3 = (2 - 1) * 3 ∧
    (pageEnvelope ([0, 1, 2, 3, 4] : List Nat) (convertOffset 2 3) 3).end_ =
      min (convertOffset 2 3 + 3) ((([0, 1, 2, 3, 4] : List Nat).length : Int)) ∧
    (pageEnvelope ([0, 1, 2, 3, 4] : List Nat) (convertOffset 2 3) 3).has_more =
      decide (convertOffset 2 3 + 3 < (([0, 1, 2, 3, 4] : List Nat).length : Int)) := by
  have h := c2_page_envelope 2 3 ([0, 1, 2, 3, 4] : List Nat) (by omega) (by omega)
  exact ⟨h.1, h.2.1, h.2.2.1⟩

theorem contains_filter_not_excl (excl : List String) (k : String)
    (hk : excl.contains k = true) (l : List String) :
    (l.filter (fun v => !excl.contains v)).contains k = false := by
  induction l with
  | nil => rfl
  | cons x rest ih =>
      rw [List.filter_cons]
      by_cases hx : (!excl.contains x) = true
      · rw [if_pos hx, List.contains_cons]
        have hkx : (k == x) = false := by
          cases hkk : k == x
          · rfl
          · exfalso
            have hke : k = x := beq_iff_eq.mp hkk
            subst hke
            rw [hk] at hx
            simp at hx
        rw [hkx, Bool.false_or]
        exact ih
      · rw [if_neg hx]
        exact ih

theorem keepSplit_not_contains (excl : List String) (s k : String)
    (hk : excl.contains k = true) :
    (keepAttrsSplit excl s).contains k = false :=
  contains_filter_not_excl excl k hk (s.splitOn ",")

theorem keepSplit_inter_nil (excl : List String) (s : String) :
    (keepAttrsSplit excl s).filter (fun x => excl.contains x) = [] := by
  unfold keepAttrsSplit
  generalize s.splitOn "," = l
  induction l with
  | nil => rfl
  | cons x rest ih =>
      rw [List.filter_cons]
      by_cases hx : (!excl.contains x) = true
      · rw [if_pos hx, List.filter_cons]
        have : excl.contains x = false := by
          cases hc : excl.contains x
          · rfl
          · rw [hc] at hx; simp at hx
        rw [this]
        simp only [Bool.false_eq_true, if_false]
        exact ih
      · rw [if_neg hx]
        exact ih

theorem applyFunc_excl_none (excl : List String) (f : Func) (attrs : List String)
    (k : String) (hk : excl.contains k = true)
    (hspec : (f = .UNSET ∧ attrs = excl) ∨
             (f = .KEEP ∧ ∃ s, attrs = keepAttrsSplit excl s))
    (d : Doc) :
    lookupDoc (applyFunc f attrs d) k = none := by
  rcases hspec with ⟨hf, ha⟩ | ⟨hf, s, ha⟩
  · subst hf
    apply lookupDoc_filter_none
    intro v
    show (!attrs.contains k) = false
    rw [ha, hk]
    rfl
  · subst hf
    apply lookupDoc_filter_none
    intro v
    show attrs.contains k = false
    rw [ha]
    exact keepSplit_not_contains excl s k hk

theorem resVertexDoc_excl_none (excl : List String) (r : ResAql) (k : String)
    (hk : excl.contains k = true) (hkf : k ≠ "_from") (hkt : k ≠ "_to")
    (hspec : (resFunc r = .UNSET ∧ resAttrs r = excl) ∨
             (resFunc r = .KEEP ∧ ∃ s, resAttrs r = keepAttrsSplit excl s))
    (v e : Doc) :
    lookupDoc (resVertexDoc r v e) k = none ∧ lookupDoc (resEdgeDoc r e) k = none := by
  cases r with
  | plain f a attrs =>
      simp only [resFunc, resAttrs] at hspec
      exact ⟨applyFunc_excl_none excl f attrs k hk hspec v, rfl⟩
  | vertexEdge f a attrs =>
      simp only [resFunc, resAttrs] at hspec
      exact ⟨applyFunc_excl_none excl f attrs k hk hspec v,
             applyFunc_excl_none excl f attrs k hk hspec e⟩
  | mergeFromTo f a attrs =>
      simp only [resFunc, resAttrs] at hspec
      refine ⟨?_, rfl⟩
      show lookupDoc (mergeDoc (applyFunc f attrs v)
        [("_from", attrVal e "_from"), ("_to", attrVal e "_to")]) k = none
      rw [lookupDoc_mergeDoc]
      have hbk : ((([("_from", attrVal e "_from"), ("_to", attrVal e "_to")] : Doc).map
          (·.1)).contains k) = false := by
        have h1 : (k == "_from") = false := by
          cases hc : k == "_from"
          · rfl
          · exact absurd (beq_iff_eq.mp hc) hkf
        have h2 : (k == "_to") = false := by
          cases hc : k == "_to"
          · rfl
          · exact absurd (beq_iff_eq.mp hc) hkt
        show ((["_from", "_to"] : List String).contains k) = false
        rw [List.contains_cons, h1, Bool.false_or, List.contains_cons, h2, Bool.false_or]
        rfl
      rw [hbk]
      simp only [Bool.false_eq_true, if_false]
      exact applyFunc_excl_none excl f attrs k hk hspec v

theorem resFk_spec (excl : List String) (ka : Option String) :
    resFk excl ka = (.UNSET, excl) ∨ ∃ s, resFk excl ka = (.KEEP, keepAttrsSplit excl s) := by
  cases ka with
  | none => exact Or.inl rfl
  | some s =>
      by_cases ht : s.trim ≠ ""
      · exact Or.inr ⟨s, by rw [resFk, if_pos ht]⟩
      · exact Or.inl (by rw [resFk, if_neg ht])

theorem v2_resFunc_attrs (o : QueryOptions) (al : Option String) :
    resFunc (v2GetResAql (some o) al) = (resFk v2UnsetRes o.keepAttrs).1 ∧
    resAttrs (v2GetResAql (some o) al) = (resFk v2UnsetRes o.keepAttrs).2 := by
  simp only [v2GetResAql]
  by_cases h1 : ((v2ResAlias al).2 && optTrue o.hasEdge) = true
  · rw [if_pos h1]; exact ⟨rfl, rfl⟩
  · rw [if_neg h1]
    by_cases h2 : ((v2ResAlias al).2 && optTrue o.hasFromTo) = true
    · rw [if_pos h2]; exact ⟨rfl, rfl⟩
    · rw [if_neg h2]; exact ⟨rfl, rfl⟩

theorem v1_resFunc_attrs (o : QueryOptions) (al : Option String) :
    resFunc (v1GetResAql (some o) al) = (resFk v1UnsetRes o.keepAttrs).1 ∧
    resAttrs (v1GetResAql (some o) al) = (resFk v1UnsetRes o.keepAttrs).2 := by
  simp only [v1GetResAql]
  by_cases h1 : optTrue o.hasEdge = true
  · rw [if_pos h1]; exact ⟨rfl, rfl⟩
  · rw [if_neg h1]; exact ⟨rfl, rfl⟩

theorem v2_res_spec (o : Option QueryOptions) (al : Option String) :
    (resFunc (v2GetResAql o al) = .UNSET ∧ resAttrs (v2GetResAql o al) = v2UnsetRes) ∨
    (resFunc (v2GetResAql o al) = .KEEP ∧
      ∃ s, resAttrs (v2GetResAql o al) = keepAttrsSplit v2UnsetRes s) := by
  cases o with
  | none => exact Or.inl ⟨rfl, rfl⟩
  | some o =>
      have h := v2_resFunc_attrs o al
      rcases resFk_spec v2UnsetRes o.keepAttrs with hfk | ⟨s, hfk⟩
      · exact Or.inl ⟨by rw [h.1, hfk], by rw [h.2, hfk]⟩
      · exact Or.inr ⟨by rw [h.1, hfk], s, by rw [h.2, hfk]⟩

theorem v1_res_spec (o : Option QueryOptions) (al : Option String) :
    (resFunc (v1GetResAql o al) = .UNSET ∧ resAttrs (v1GetResAql o al) = v1UnsetRes) ∨
    (resFunc (v1GetResAql o al) = .KEEP ∧
      ∃ s, resAttrs (v1GetResAql o al) = keepAttrsSplit v1UnsetRes s) := by
  cases o with
  | none =>
      simp only [v1GetResAql]
      by_cases h1 : (v1ResAlias al).2 = true
      · rw [if_pos h1]; exact Or.inl ⟨rfl, rfl⟩
      · rw [if_neg h1]; exact Or.inl ⟨rfl, rfl⟩
  | some o =>
      have h := v1_resFunc_attrs o al
      rcases resFk_spec v1UnsetRes o.keepAttrs with hfk | ⟨s, hfk⟩
      · exact Or.inl ⟨by rw [h.1, hfk], by rw [h.2, hfk]⟩
      · exact Or.inr ⟨by rw [h.1, hfk], s, by rw [h.2, hfk]⟩

/-- C3: For every options value and alias, the projection built by
`getResAql` (both variants) never returns an attribute of the forced
excluded set — stated for every attribute of the V2 set, which is contained
in the V1 set — on the vertex side or the edge side of any of its three
shapes, even when `options.keepAttrs` explicitly lists that attribute; and
the keep-list passed to `KEEP` is always disjoint from the excluded set. -/
theorem c3_forced_exclusions (o : Option QueryOptions) (al : Option String) (v e : Doc)
    (k : String) (hk : k ∈ v2UnsetRes) :
    lookupDoc (resVertexDoc (v2GetResAql o al) v e) k = none ∧
    lookupDoc (resEdgeDoc (v2GetResAql o al) e) k = none ∧
    lookupDoc (resVertexDoc (v1GetResAql o al) v e) k = none ∧
    lookupDoc (resEdgeDoc (v1GetResAql o al) e) k = none ∧
    (∀ s, (keepAttrsSplit v2UnsetRes s).filter (fun x => v2UnsetRes.contains x) = [] ∧
          (keepAttrsSplit v1UnsetRes s).filter (fun x => v1UnsetRes.contains x) = []) := by
  have main : ∀ k' : String, v2UnsetRes.contains k' = true → v1UnsetRes.contains k' = true →
      k' ≠ "_from" → k' ≠ "_to" →
      lookupDoc (resVertexDoc (v2GetResAql o al) v e) k' = none ∧
      lookupDoc (resEdgeDoc (v2GetResAql o al) e) k' = none ∧
      lookupDoc (resVertexDoc (v1GetResAql o al) v e) k' = none ∧
      lookupDoc (resEdgeDoc (v1GetResAql o al) e) k' = none := by
    intro k' h2c h1c hf ht
    have h2 := resVertexDoc_excl_none v2UnsetRes (v2GetResAql o al) k' h2c hf ht
      (v2_res_spec o al) v e
    have h1 := resVertexDoc_excl_none v1UnsetRes (v1GetResAql o al) k' h1c hf ht
      (v1_res_spec o al) v e
    exact ⟨h2.1, h2.2, h1.1, h1.2⟩
  have hdisj : ∀ s, (keepAttrsSplit v2UnsetRes s).filter (fun x => v2UnsetRes.contains x) = [] ∧
      (keepAttrsSplit v1UnsetRes s).filter (fun x => v1UnsetRes.contains x) = [] :=
    fun s => ⟨keepSplit_inter_nil v2UnsetRes s, keepSplit_inter_nil v1UnsetRes s⟩
  simp only [v2UnsetRes, List.mem_cons, List.mem_singleton, List.not_mem_nil, or_false] at hk
  rcases hk with h | h | h | h <;> subst h <;>
    exact ⟨(main _ (by decide) (by decide) (by decide) (by decide)).1,
           (main _ (by decide) (by decide) (by decide) (by decide)).2.1,
           (main _ (by decide) (by decide) (by decide) (by decide)).2.2.1,
           (main _ (by decide) (by decide) (by decide) (by decide)).2.2.2, hdisj⟩

/-- Witness for C3: `keepAttrs` explicitly requesting `password` still
never returns it. -/
theorem c3_forced_exclusions_witness :
    lookupDoc (resVertexDoc
      (v2GetResAql (some (QueryOptions.mk none none (some "password,name") none none none)) none)
      [("password", Scalar.str "pw"), ("name", Scalar.str "n")] []) "password" = none :=
  (c3_forced_exclusions
    (some (QueryOptions.mk none none (some "password,name") none none none)) none
    [("password", Scalar.str "pw"), ("name", Scalar.str "n")] [] "password" (by decide)).1

theorem lookupDoc_isSome_of_contains (d : Doc) (k : String)
    (h : (d.map (·.1)).contains k = true) :
    (lookupDoc d k).isSome = true := by
  induction d with
  | nil => simp at h
  | cons kv rest ih =>
      obtain ⟨k', v⟩ := kv
      simp only [List.map_cons, List.contains_cons] at h
      rw [lookupDoc_cons]
      by_cases hk : (k' == k) = true
      · rw [if_pos hk]
        rfl
      · simp only [Bool.not_eq_true] at hk
        rw [hk]
        simp only [Bool.false_eq_true, if_false]
        have hk2 : (k == k') = false := by
          cases hc : k == k'
          · rfl
          · exfalso
            have hkk : k = k' := beq_iff_eq.mp hc
            subst hkk
            simp at hk
        rw [hk2, Bool.false_or] at h
        exact ih h

theorem saveDocExpr_lookup_forced (doc : Doc) (cd k : String)
    (hb : ((["_create_date", "_status"] : List String).contains k) = true) :
    lookupDoc (saveDocExpr doc cd) k =
      lookupDoc [("_create_date", Scalar.str cd), ("_status", Scalar.bool true)] k := by
  unfold saveDocExpr
  rw [lookupDoc_mergeDoc]
  rw [show ((([("_create_date", Scalar.str cd), ("_status", Scalar.bool true)] : Doc).map
    (·.1))) = ["_create_date", "_status"] from rfl, hb]
  rfl

theorem saveDocExpr_lookup_protected (doc : Doc) (cd k : String)
    (hu : unsetAttrs.contains k = true)
    (hb : ((["_create_date", "_status"] : List String).contains k) = false) :
    lookupDoc (saveDocExpr doc cd) k = none := by
  unfold saveDocExpr
  rw [lookupDoc_mergeDoc]
  rw [show ((([("_create_date", Scalar.str cd), ("_status", Scalar.bool true)] : Doc).map
    (·.1))) = ["_create_date", "_status"] from rfl, hb]
  simp only [Bool.false_eq_true, if_false]
  apply lookupDoc_filter_none
  intro v
  show (!unsetAttrs.contains k) = false
  rw [hu]
  rfl

theorem updateDocExpr_lookup_protected (newObj : Doc) (ud k : String)
    (hu : unsetAttrs.contains k = true)
    (hb : ((["_update_date"] : List String).contains k) = false) :
    lookupDoc (updateDocExpr newObj ud) k = none := by
  unfold updateDocExpr
  rw [lookupDoc_mergeDoc]
  rw [show ((([("_update_date", Scalar.str ud)] : Doc).map (·.1))) = ["_update_date"] from rfl, hb]
  simp only [Bool.false_eq_true, if_false]
  apply lookupDoc_filter_none
  intro v
  show (!unsetAttrs.contains k) = false
  rw [hu]
  rfl

theorem updateApply_lookup_unchanged (t payload : Doc) (k : String)
    (hn : lookupDoc payload k = none) :
    lookupDoc (updateApply t payload) k = lookupDoc t k := by
  unfold updateApply
  rw [lookupDoc_mergeDoc]
  have hc : ((payload.map (·.1)).contains k) = false := by
    cases hcc : (payload.map (·.1)).contains k
    · rfl
    · exfalso
      have := lookupDoc_isSome_of_contains payload k hcc
      rw [hn] at this
      simp at this
  rw [hc]
  simp only [Bool.false_eq_true, if_false]

/-- C10: `save`/`saves` insert
`MERGE(UNSET(doc, this.unset), {_create_date, _status: true})`, so the
stored document is always active with a fresh creation date and never keeps
a caller-supplied `_id`, `_rev` or `_key`; the `update`/`updates`/
`updatesEach` payload `MERGE(UNSET(newObj, this.unset), {_update_date})`
contains none of the protected fields, so applying it leaves each of them
unchanged in the stored document. -/
theorem c10_protected_fields (doc newObj t : Doc) (cd ud : String) :
    lookupDoc (saveDocExpr doc cd) "_status" = some (Scalar.bool true) ∧
    lookupDoc (saveDocExpr doc cd) "_create_date" = some (Scalar.str cd) ∧
    lookupDoc (saveDocExpr doc cd) "_id" = none ∧
    lookupDoc (saveDocExpr doc cd) "_rev" = none ∧
    lookupDoc (saveDocExpr doc cd) "_key" = none ∧
    lookupDoc (updateDocExpr newObj ud) "_id" = none ∧
    lookupDoc (updateDocExpr newObj ud) "_rev" = none ∧
    lookupDoc (updateDocExpr newObj ud) "_key" = none ∧
    lookupDoc (updateDocExpr newObj ud) "_status" = none ∧
    lookupDoc (updateDocExpr newObj ud) "_create_date" = none ∧
    lookupDoc (updateApply t (updateDocExpr newObj ud)) "_id" = lookupDoc t "_id" ∧
    lookupDoc (updateApply t (updateDocExpr newObj ud)) "_rev" = lookupDoc t "_rev" ∧
    lookupDoc (updateApply t (updateDocExpr newObj ud)) "_key" = lookupDoc t "_key" ∧
    lookupDoc (updateApply t (updateDocExpr newObj ud)) "_status" = lookupDoc t "_status" ∧
    lookupDoc (updateApply t (updateDocExpr newObj ud)) "_create_date" =
      lookupDoc t "_create_date" := by
  refine ⟨?_, ?_, ?_, ?_, ?_, ?_, ?_, ?_, ?_, ?_, ?_, ?_, ?_, ?_, ?_⟩
  · exact (saveDocExpr_lookup_forced doc cd "_status" rfl).trans rfl
  · exact (saveDocExpr_lookup_forced doc cd "_create_date" rfl).trans rfl
  · exact saveDocExpr_lookup_protected doc cd "_id" rfl rfl
  · exact saveDocExpr_lookup_protected doc cd "_rev" rfl rfl
  · exact saveDocExpr_lookup_protected doc cd "_key" rfl rfl
  · exact updateDocExpr_lookup_protected newObj ud "_id" rfl rfl
  · exact updateDocExpr_lookup_protected newObj ud "_rev" rfl rfl
  · exact updateDocExpr_lookup_protected newObj ud "_key" rfl rfl
  · exact updateDocExpr_lookup_protected newObj ud "_status" rfl rfl
  · exact updateDocExpr_lookup_protected newObj ud "_create_date" rfl rfl
  · exact updateApply_lookup_unchanged t _ "_id"
      (updateDocExpr_lookup_protected newObj ud "_id" rfl rfl)
  · exact updateApply_lookup_unchanged t _ "_rev"
      (updateDocExpr_lookup_protected newObj ud "_rev" rfl rfl)
  · exact updateApply_lookup_unchanged t _ "_key"
      (updateDocExpr_lookup_protected newObj ud "_key" rfl rfl)
  · exact updateApply_lookup_unchanged t _ "_status"
      (updateDocExpr_lookup_protected newObj ud "_status" rfl rfl)
  · exact updateApply_lookup_unchanged t _ "_create_date"
      (updateDocExpr_lookup_protected newObj ud "_create_date" rfl rfl)

/-- C7 counterexample: a depth-2 path whose intermediate vertex is
soft-deleted.  The V1 `getGraphVertices` filter
(`FILTER v._status == true and e._status`, src/app/dao/base.js line 1199)
only sees the endpoint and accepts the path, so soft-deleted documents are
not filtered out along the entire path in that variant; the V2 whole-path
filter rejects it. -/
theorem c7_counterexample :
    v1GraphEndpointFilter
      [("_id", Scalar.str "org/3"), ("_status", Scalar.bool true)]
      [("_id", Scalar.str "edge/2"), ("_status", Scalar.bool true)] = true ∧
    attrVal [("_id", Scalar.str "org/2"), ("_status", Scalar.bool false)] "_status" =
      Scalar.bool false ∧
    v2GraphPathFilter
      ⟨[[("_id", Scalar.str "org/1"), ("_status", Scalar.bool true)],
        [("_id", Scalar.str "org/2"), ("_status", Scalar.bool false)],
        [("_id", Scalar.str "org/3"), ("_status", Scalar.bool true)]],
       [[("_id", Scalar.str "edge/1"), ("_status", Scalar.bool true)],
        [("_id", Scalar.str "edge/2"), ("_status", Scalar.bool true)]]⟩ = false := by
  refine ⟨rfl, rfl, rfl⟩

/-- C7 (amended): the later `getGraphVertices` (part_002 line 1440) filters
with `p.vertices[*]._status ALL == true and p.edges[*]._status ALL == true`,
so a path containing any soft-deleted vertex or edge anywhere along it
contributes nothing; the earlier variant tests only the endpoint vertex and
edge. -/
theorem c7_whole_path_filter (p : GraphPath)
    (h : (∃ d ∈ p.vertices, attrVal d "_status" ≠ Scalar.bool true) ∨
         (∃ d ∈ p.edges, attrVal d "_status" ≠ Scalar.bool true)) :
    v2GraphPathFilter p = false := by
  unfold v2GraphPathFilter
  rcases h with ⟨d, hm, hd⟩ | ⟨d, hm, hd⟩
  · have : p.vertices.all (fun d => attrVal d "_status" == Scalar.bool true) = false := by
      cases hall : p.vertices.all (fun d => attrVal d "_status" == Scalar.bool true)
      · rfl
      · exfalso
        have := List.all_eq_true.mp hall d hm
        exact hd (beq_iff_eq.mp this)
    rw [this, Bool.false_and]
  · have : p.edges.all (fun d => attrVal d "_status" == Scalar.bool true) = false := by
      cases hall : p.edges.all (fun d => attrVal d "_status" == Scalar.bool true)
      · rfl
      · exfalso
        have := List.all_eq_true.mp hall d hm
        exact hd (beq_iff_eq.mp this)
    rw [this, Bool.and_false]

/-- Witness for C7 at the concrete soft-deleted-intermediate-vertex path. -/
theorem c7_whole_path_filter_witness :
    v2GraphPathFilter
      ⟨[[("_id", Scalar.str "org/1"), ("_status", Scalar.bool true)],
        [("_id", Scalar.str "org/2"), ("_status", Scalar.bool false)],
        [("_id", Scalar.str "org/3"), ("_status", Scalar.bool true)]],
       [[("_id", Scalar.str "edge/1"), ("_status", Scalar.bool true)],
        [("_id", Scalar.str "edge/2"), ("_status", Scalar.bool true)]]⟩ = false :=
  c7_whole_path_filter _ (Or.inl ⟨[("_id", Scalar.str "org/2"), ("_status", Scalar.bool false)],
    by decide, by decide⟩)

/-- C6 counterexample: the V2 `getOneByFilter` (part_002 lines 574-577) has
its uniqueness validation commented out (`// TODO:验证唯一性`), so a
two-row result raises no error: the operation returns the first row. -/
theorem c6_counterexample :
    (v2GetOneByFilter
        (fun _ => [[("name", Scalar.str "a")], [("name", Scalar.str "b")]])
        "user" [("name", FilterValue.scalar (.str "a"))] none).1 =
      .ok (some [("name", Scalar.str "a")]) ∧
    ([[("name", Scalar.str "a")], [("name", Scalar.str "b")]] : List Doc).length > 1 :=
  ⟨rfl, by decide⟩

/-- C6 (amended): `getOne` in both variants and the earlier `getOneByFilter`
raise a business error when the query returns more than one row and return
null on zero rows; the later `getOneByFilter` instead sorts by creation
date descending and returns the first row without raising (zero rows still
yield null). -/
theorem c6_single_result (objs : List α) (x : α) (rest : List α)
    (collection _id : String) (filter : FilterObj) (o1 o2 : Option QueryOptions)
    (h1 : (_id != "" && optionsOkV1 o1) = true)
    (h2 : (filterMinOk filter && optionsOkV1 o1) = true)
    (h3 : (_id != "" && optionsOkV2 o2) = true)
    (h4 : (filterMinOk filter && optionsOkV2 o2) = true) :
    (objs.length > 1 →
      (v1GetOne (fun _ => objs) collection _id o1).1 = .error .invalidResult ∧
      (v1GetOneByFilter (fun _ => objs) collection filter o1).1 = .error .invalidResult ∧
      (v2GetOne (fun _ => objs) collection _id o2).1 = .error .invalidResult) ∧
    (objs = [] →
      (v1GetOne (fun _ => objs) collection _id o1).1 = .ok none ∧
      (v1GetOneByFilter (fun _ => objs) collection filter o1).1 = .ok none ∧
      (v2GetOne (fun _ => objs) collection _id o2).1 = .ok none ∧
      (v2GetOneByFilter (fun _ => objs) collection filter o2).1 = .ok none) ∧
    (v2GetOneByFilter (fun _ => x :: rest) collection filter o2).1 = .ok (some x) := by
  refine ⟨?_, ?_, ?_⟩
  · intro hlen
    refine ⟨?_, ?_, ?_⟩
    · simp [v1GetOne, h1, hlen]
    · simp [v1GetOneByFilter, h2, hlen]
    · simp [v2GetOne, h3, hlen]
  · intro hnil
    subst hnil
    refine ⟨?_, ?_, ?_, ?_⟩
    · simp [v1GetOne, h1, convertArrayToObject]
    · simp [v1GetOneByFilter, h2, convertArrayToObject]
    · simp [v2GetOne, h3, convertArrayToObject]
    · simp [v2GetOneByFilter, h4, convertArrayToObject]
  · simp [v2GetOneByFilter, h4, convertArrayToObject]

/-- Witness for C6 with a two-row result and valid parameters. -/
theorem c6_single_result_witness :
    (v1GetOneByFilter
        (fun _ => [[("name", Scalar.str "a")], [("name", Scalar.str "b")]])
        "user" [("name", FilterValue.scalar (.str "a"))] none).1 =
      .error .invalidResult ∧
    (v2GetOneByFilter
        (fun _ => ([] : List Doc))
        "user" [("name", FilterValue.scalar (.str "a"))] none).1 = .ok none := by
  have h := c6_single_result
    ([[("name", Scalar.str "a")], [("name", Scalar.str "b")]] : List Doc)
    ([("name", Scalar.str "a")] : Doc) ([] : List Doc)
    "user" "user/1" [("name", FilterValue.scalar (.str "a"))] none none
    (by decide) (by decide) (by decide) (by decide)
  have h0 := c6_single_result ([] : List Doc)
    ([("name", Scalar.str "a")] : Doc) ([] : List Doc)
    "user" "user/1" [("name", FilterValue.scalar (.str "a"))] none none
    (by decide) (by decide) (by decide) (by decide)
  exact ⟨(h.1 (by decide)).2.1, (h0.2.1 rfl).2.2.2⟩

/-- C8: For each modelled Dao operation, a failed parameter validation
raises the business error before any query is issued: the connector is
never invoked (the issued-query trace is empty), so the database state is
untouched. -/
theorem c8_validation_before_query
    (exec : Fragment → List α) (collection collections _id direction cd ud : String)
    (doc newObj : Doc) (docs : List Doc) (filter : FilterObj)
    (options : Option QueryOptions) (p : PageParams) (gp : GraphParams) :
    (docMinOk doc = false →
      v1Save exec collection doc cd = (.error .invalidParams, [])) ∧
    ((!docs.isEmpty && docs.all docMinOk) = false →
      v1Saves exec collection docs cd = (.error .invalidParams, [])) ∧
    ((_id != "" && docMinOk newObj) = false →
      v1Update exec collection _id newObj ud = (.error .invalidParams, [])) ∧
    ((_id != "") = false →
      v1Delete exec collection _id = (.error .invalidParams, [])) ∧
    ((_id != "") = false →
      v1PhysicalDelete exec collection _id = (.error .invalidParams, [])) ∧
    ((_id != "" && optionsOkV1 options) = false →
      v1GetOne exec collection _id options = (.error .invalidParams, [])) ∧
    ((filterMinOk filter && optionsOkV1 options) = false →
      v1GetOneByFilter exec collection filter options = (.error .invalidParams, [])) ∧
    (v1GetPageOk p = false →
      v1GetPage exec collection collections p = (.error .invalidParams, [])) ∧
    ((["OUTBOUND", "INBOUND", "ANY"].contains direction) = false →
      v2GetGraphVertices exec collection direction gp = (.error .invalidParams, [])) := by
  refine ⟨?_, ?_, ?_, ?_, ?_, ?_, ?_, ?_, ?_⟩ <;> intro h
  · simp [v1Save, h]
  · simp [v1Saves, h]
  · simp [v1Update, h]
  · simp [v1Delete, h]
  · simp [v1PhysicalDelete, h]
  · simp [v1GetOne, h]
  · simp [v1GetOneByFilter, h]
  · simp [v1GetPage, h]
  · unfold v2GetGraphVertices
    rw [h]
    rfl

/-- Witness for C8: an empty `save` payload and an invalid traversal
direction both fail fast with no query issued. -/
theorem c8_validation_before_query_witness :
    v1Save (fun _ => ([] : List Doc)) "user" [] "2020-01-01" =
      (.error .invalidParams, []) ∧
    v2GetGraphVertices (fun _ => ([] : List Doc)) "org_graph" "SIDEWAYS"
      (GraphParams.mk "org/1" 1 none none none none none) =
      (.error .invalidParams, []) := by
  have h := c8_validation_before_query (fun _ => ([] : List Doc))
    "user" "users" "user/1" "SIDEWAYS" "2020-01-01" "2020-01-01"
    [] [] [] [] none (PageParams.mk 1 10 none none none none)
    (GraphParams.mk "org/1" 1 none none none none none)
  exact ⟨h.1 (by decide), h.2.2.2.2.2.2.2.2 (by decide)⟩

/-- C1: `getGraphVertices` passes the request-supplied `start_id` through
`aql.literal` (part_002 line 1398, base.js line 1165), so the raw string —
here one containing a quote and an AQL tail — appears verbatim as inlined
literal text of the single issued query instead of being bound, which
contradicts the bind-only rule for attacker-influenceable data. -/
theorem c1_start_id_inlined :
    (v2GetGraphVertices (fun _ => ([] : List Doc)) "org_graph" "OUTBOUND"
        (GraphParams.mk "x\x27 REMOVE u IN users //" 1 none none none none none)).2.length = 1 ∧
    QPart.lit "x\x27 REMOVE u IN users //" ∈
      (v2GetGraphVertices (fun _ => ([] : List Doc)) "org_graph" "OUTBOUND"
        (GraphParams.mk "x\x27 REMOVE u IN users //" 1 none none none none none)).2.flatten := by
  have htrace : (v2GetGraphVertices (fun _ => ([] : List Doc)) "org_graph" "OUTBOUND"
      (GraphParams.mk "x\x27 REMOVE u IN users //" 1 none none none none none)).2 =
      [v2GraphVerticesQuery (getWithCollectionNames "org_graph") "org_graph" "OUTBOUND"
        (v2GraphDepthStr 1 none) "x\x27 REMOVE u IN users //" none none
        (v2GetSortAql (v2GetSortFieldAqlList none (some "v") ++
          v2GetSortFieldAqlList none (some "e")))
        (v2GetResAql none (some "v")) (getStaticDataAql none none)] := rfl
  constructor
  · rw [htrace]
    rfl
  · rw [htrace]
    simp [v2GraphVerticesQuery, spliceOpt]
